import Mathlib

/-!
# k8ssandra-client: release cleaner and CRD upgrader

A shallow embedding of `pkg/cleaner/cleaner.go`, `pkg/upgrade/crds.go` and of
`options.Complete` in `cmd/kubectl-k8ssandra/cleaner/cleaner.go`.

The cluster API client is a collaborator: it is a record of operations over an
abstract cluster state `σ`, and every request the program sends is appended to a
ghost trace so that theorems can speak about the requests that were issued.
Go control flow that leaves a function abnormally is kept explicit in `Outcome`:
`log.Fatal`/`log.Fatalf` end the process with status 1, and a nil dereference or
an index out of range panics.  The text written by the `log` package is not
modelled.
-/

set_option autoImplicit false

namespace K8ssandra

/-! ## Errors and outcomes -/

/-- Error values that reach the program. `alreadyExists` is an API status error
whose reason is `AlreadyExists`; `status` is any other API status error; `os`,
`eof` and `yaml` come from reading and decoding files. -/
inductive Err where
  | alreadyExists (name : String)
  | status (reason : String)
  | os (msg : String)
  | eof
  | yaml (msg : String)
  | notEnoughParameters
  deriving DecidableEq, Repr

/-- The predicate `apierrors.IsAlreadyExists`. -/
def IsAlreadyExists : Err → Bool
  | .alreadyExists _ => true
  | _ => false

/-- How a Go function call ends: it returns its `error` result (`none` is
`nil`), the process is ended by `log.Fatal` (`os.Exit(1)`), or it panics. -/
inductive Outcome where
  | returned (err : Option Err)
  | exited (status : Nat)
  | panicked
  deriving DecidableEq, Repr

/-! ## Cluster objects -/

/-- Go map from string to string, as an association list. -/
abbrev StringMap := List (String × String)

/-- The fields of `cassdcapi.CassandraDatacenter` that the cleaner reads. -/
structure CassandraDatacenter where
  Name : String
  Namespace : String
  Labels : StringMap
  Annotations : StringMap
  deriving DecidableEq, Repr

/-- The fields of `medusa.CassandraBackup` that the cleaner reads;
`SpecCassandraDatacenter` is `Spec.CassandraDatacenter`. -/
structure CassandraBackup where
  Name : String
  Namespace : String
  Labels : StringMap
  SpecCassandraDatacenter : String
  deriving DecidableEq, Repr

/-- A schema-less object, `unstructured.Unstructured`. -/
structure Unstructured where
  Name : String
  Body : String
  deriving DecidableEq, Repr

/-- A request sent to the cluster API. -/
inductive Request where
  | listDatacenters (ns : String) (labels : StringMap)
  | listBackups (ns : String) (labels : StringMap)
  | deleteDatacenter (dc : CassandraDatacenter)
  | deleteBackup (b : CassandraBackup)
  | create (obj : Unstructured)
  | update (obj : Unstructured)
  deriving DecidableEq, Repr

/-- The capability `client.Client`, at the object kinds the program uses, over a
cluster state `σ`. `Create` and `Update` also give back the object as the client
leaves it behind the pointer it was handed. -/
structure Client (σ : Type) where
  ListDatacenters : σ → String → StringMap → σ × Except Err (List CassandraDatacenter)
  ListBackups : σ → String → StringMap → σ × Except Err (List CassandraBackup)
  DeleteDatacenter : σ → CassandraDatacenter → σ × Option Err
  DeleteBackup : σ → CassandraBackup → σ × Option Err
  Create : σ → Unstructured → σ × Unstructured × Option Err
  Update : σ → Unstructured → σ × Unstructured × Option Err

/-! ## File system -/

/-- A cleaned path, as its components. -/
abbrev Path := List String

/-- One document of a YAML stream, as `yaml.Unmarshal` sees it: it decodes to an
object or is rejected. -/
inductive RawDoc where
  | wellFormed (obj : Unstructured)
  | malformed (e : Err)
  deriving DecidableEq, Repr

/-- What `lstat` and `ioutil.ReadFile` find at a path: a directory, a file that
cannot be read, a file holding a stream of documents (the non-empty chunks
between `---` separators), or an entry whose `lstat` fails. -/
inductive Node where
  | dir
  | unreadable (e : Err)
  | file (docs : List RawDoc)
  | noInfo (e : Err)
  deriving DecidableEq, Repr

/-- The file system: its entries, held in the lexical order in which
`filepath.Walk` meets them. -/
abbrev FS := List (Path × Node)

/-- The state the program acts on: the cluster, the local file system and the
ghost trace of requests sent so far. -/
structure World (σ : Type) where
  cluster : σ
  fs : FS
  requests : List Request

/-- The world after request `r` was sent and the cluster moved to `s`. -/
def World.sent {σ : Type} (w : World σ) (r : Request) (s : σ) : World σ :=
  { cluster := s, fs := w.fs, requests := w.requests ++ [r] }

/-! ## pkg/cleaner/cleaner.go -/

def managedLabel : String := "app.kubernetes.io/managed-by"
def managedLabelValue : String := "Helm"
def releaseAnnotation : String := "meta.helm.sh/release-name"
def instanceLabel : String := "app.kubernetes.io/instance"

/-- The cleaning agent; its client is passed alongside. -/
structure Agent where
  Namespace : String
  deriving DecidableEq, Repr

/-- The `for _, backup := range list.Items` loop of `removeCassandraBackups`. -/
def removeCassandraBackupsLoop {σ : Type} (c : Client σ) (cassdc : CassandraDatacenter) :
    List CassandraBackup → World σ → World σ × Outcome
  | [], w => (w, .returned none)
  | backup :: rest, w =>
    if backup.SpecCassandraDatacenter = cassdc.Name then
      match c.DeleteBackup w.cluster backup with
      | (s, some _) => (w.sent (.deleteBackup backup) s, .exited 1)
      | (s, none) => removeCassandraBackupsLoop c cassdc rest (w.sent (.deleteBackup backup) s)
    else removeCassandraBackupsLoop c cassdc rest w

/-- The method `Agent.removeCassandraBackups`. -/
def removeCassandraBackups {σ : Type} (c : Client σ) (_a : Agent) (cassdc : CassandraDatacenter)
    (releaseName : String) (w : World σ) : World σ × Outcome :=
  let labels : StringMap := [(instanceLabel, releaseName)]
  match c.ListBackups w.cluster cassdc.Namespace labels with
  | (s, .error _) => (w.sent (.listBackups cassdc.Namespace labels) s, .exited 1)
  | (s, .ok items) =>
    removeCassandraBackupsLoop c cassdc items (w.sent (.listBackups cassdc.Namespace labels) s)

/-- The `for _, cassdc := range list.Items` loop of `removeCassandraDatacenter`. -/
def removeCassandraDatacenterLoop {σ : Type} (c : Client σ) (releaseName : String) :
    List CassandraDatacenter → World σ → World σ × Outcome
  | [], w => (w, .returned none)
  | cassdc :: rest, w =>
    match cassdc.Annotations.lookup releaseAnnotation with
    | some release =>
      if release = releaseName then
        match c.DeleteDatacenter w.cluster cassdc with
        | (s, some _) => (w.sent (.deleteDatacenter cassdc) s, .exited 1)
        | (s, none) =>
          removeCassandraDatacenterLoop c releaseName rest (w.sent (.deleteDatacenter cassdc) s)
      else removeCassandraDatacenterLoop c releaseName rest w
    | none => removeCassandraDatacenterLoop c releaseName rest w

/-- The method `Agent.removeCassandraDatacenter`. -/
def removeCassandraDatacenter {σ : Type} (c : Client σ) (a : Agent) (releaseName : String)
    (w : World σ) : World σ × Outcome :=
  let labels : StringMap := [(managedLabel, managedLabelValue)]
  match c.ListDatacenters w.cluster a.Namespace labels with
  | (s, .error _) => (w.sent (.listDatacenters a.Namespace labels) s, .exited 1)
  | (s, .ok items) =>
    removeCassandraDatacenterLoop c releaseName items (w.sent (.listDatacenters a.Namespace labels) s)

/-- The method `Agent.RemoveResources`. -/
def RemoveResources {σ : Type} (c : Client σ) (a : Agent) (releaseName : String)
    (w : World σ) : World σ × Outcome :=
  match removeCassandraDatacenter c a releaseName w with
  | (w1, .returned (some _)) => (w1, .exited 1)
  | (w1, out) => (w1, out)

/-! ## pkg/upgrade/crds.go -/

/-- The package `helmutil` of this repository, which is not among the sources at
hand: the chart name constant and the artifact provider, which may change the
file system and gives the directory it extracted the chart into. -/
structure Helmutil where
  ChartName : String
  DownloadChartRelease : String → FS → FS × Except Err Path

/-- The function `filepath.Join` on a cleaned path and further elements, each a
single path component; empty elements are ignored. -/
def Join (base : Path) (elems : List String) : Path :=
  base ++ elems.filter (fun e => e ≠ "")

/-- The function `os.RemoveAll`: the path and everything below it is gone. -/
def RemoveAll (path : Path) (fs : FS) : FS :=
  fs.filter (fun entry => !(path.isPrefixOf entry.1))

/-- The callback that `parseChartCRDs` hands to `filepath.Walk`, at one entry.
With no `FileInfo` the call `info.IsDir()` is a nil dereference; a directory is
passed over; otherwise the file is read, `reader.Read()` is called once, which
gives the first document of the stream or `io.EOF`, and that document is decoded
and appended. -/
def walkFn (crds : List Unstructured) : Node → List Unstructured × Outcome
  | .noInfo _ => (crds, .panicked)
  | .dir => (crds, .returned none)
  | .unreadable e => (crds, .returned (some e))
  | .file [] => (crds, .returned (some .eof))
  | .file (.malformed e :: _) => (crds, .returned (some e))
  | .file (.wellFormed crd :: _) => (crds ++ [crd], .returned none)

/-- The traversal of `filepath.Walk` over the entries it meets, in order: it
stops at the first entry where the callback does not return nil. -/
def walkEntries : List Node → List Unstructured → List Unstructured × Outcome
  | [], crds => (crds, .returned none)
  | n :: rest, crds =>
    match walkFn crds n with
    | (crds1, .returned none) => walkEntries rest crds1
    | (crds1, out) => (crds1, out)

/-- The method `Upgrader.parseChartCRDs`: `filepath.Walk` from `crdDir`. When
`lstat` of the root fails the callback is called without a `FileInfo`. -/
def parseChartCRDs (crds : List Unstructured) (crdDir : Path) (fs : FS) :
    List Unstructured × Outcome :=
  match fs.lookup crdDir with
  | none => (crds, .panicked)
  | some _ => walkEntries ((fs.filter (fun entry => crdDir.isPrefixOf entry.1)).map (·.2)) crds

/-- The loop `for _, obj := range crds { res = append(res, &obj) }`: the cells
that hold the range variable, and `res` as pointers (indices) into them. Before
Go 1.22 `obj` is one variable for the whole loop, so every `&obj` is the same
pointer and the cell ends up holding the last element; from Go 1.22 on each
iteration has a variable of its own. Which one applies is fixed by the language
version of the module, hence the parameter. -/
def collectPointers (perIteration : Bool) (crds : List Unstructured) :
    List Unstructured × List Nat :=
  if perIteration then (crds, List.range crds.length)
  else
    match crds.getLast? with
    | none => ([], [])
    | some last => ([last], List.replicate crds.length 0)

/-- The loop `for _, obj := range res` of `Upgrade`. `err` is the variable `err`
of `Upgrade`, which the loop tests and never assigns: the results of `Create`
and `Update` are dropped. The answer `some out` is an early `return`. -/
def reconcileLoop {σ : Type} (c : Client σ) (err : Option Err) :
    List Nat → List Unstructured → World σ → World σ × Option Outcome
  | [], _, w => (w, none)
  | p :: rest, heap, w =>
    match heap[p]? with
    | none => (w, some .panicked)
    | some obj =>
      match c.Create w.cluster obj with
      | (s1, obj1, _) =>
        let w1 := w.sent (.create obj) s1
        let heap1 := heap.set p obj1
        match err with
        | none => reconcileLoop c err rest heap1 w1
        | some e =>
          if IsAlreadyExists e then
            match c.Update w1.cluster obj1 with
            | (s2, obj2, _) =>
              let w2 := w1.sent (.update obj1) s2
              if err.isSome then (w2, some (.returned err))
              else reconcileLoop c err rest (heap1.set p obj2) w2
          else reconcileLoop c err rest heap1 w1

/-- The method `Upgrader.Upgrade`. The deferred `os.RemoveAll(crdDir)` runs when
the body returns or panics. -/
def Upgrade {σ : Type} (h : Helmutil) (perIteration : Bool) (c : Client σ)
    (targetVersion : String) (w : World σ) : World σ × Outcome :=
  match h.DownloadChartRelease targetVersion w.fs with
  | (fs1, .error e) => ({ w with fs := fs1 }, .returned (some e))
  | (fs1, .ok extractDir) =>
    let crdDir := Join extractDir [h.ChartName, "crds"]
    let w1 : World σ := { w with fs := fs1 }
    let body : World σ × Outcome :=
      match parseChartCRDs [] crdDir fs1 with
      | (crds, .returned err) =>
        let (heap, res) := collectPointers perIteration crds
        match reconcileLoop c err res heap w1 with
        | (w2, some out) => (w2, out)
        | (w2, none) => (w2, .returned err)
      | (_, out) => (w1, out)
    ({ body.1 with fs := RemoveAll crdDir body.1.fs }, body.2)

/-! ## cmd/kubectl-k8ssandra/cleaner/cleaner.go -/

/-- The value `errNotEnoughParameters`. -/
def errNotEnoughParameters : Err := .notEnoughParameters

/-- The fields of `options` that `Complete` assigns; `Namespace` is the field
`namespace`. -/
structure options where
  releaseName : String
  Namespace : String
  deriving DecidableEq, Repr

/-- The method `options.Complete`. `loaderNamespace` is what
`c.configFlags.ToRawKubeConfigLoader().Namespace()` gives (namespace and error).
Indexing `args[0]` on an empty slice panics. -/
def Complete (loaderNamespace : String × Option Err) (c : options) (args : List String) :
    options × Outcome :=
  if (args.length : Int) < 0 then (c, .returned (some errNotEnoughParameters))
  else
    match args[0]? with
    | none => (c, .panicked)
    | some arg0 =>
      ({ releaseName := arg0, Namespace := loaderNamespace.1 }, .returned loaderNamespace.2)

/-! ## An in-memory cluster for concrete runs -/

/-- A small cluster state: the stored objects and the names of objects whose
deletion or creation the API server refuses. -/
structure Cluster where
  datacenters : List CassandraDatacenter
  backups : List CassandraBackup
  crds : List Unstructured
  denied : List String
  deriving DecidableEq, Repr

/-- Label selector match: every wanted pair is among the labels. -/
def matchingLabels (wanted labels : StringMap) : Bool :=
  wanted.all (fun kv => labels.lookup kv.1 == some kv.2)

/-- A client over `Cluster`: lists filter by namespace (the empty namespace is
no restriction) and labels, deletes
remove the object unless its name is denied, `Create` answers `AlreadyExists`
for a stored name and `Update` replaces a stored object. -/
def memClient : Client Cluster where
  ListDatacenters s ns labels :=
    (s, .ok (s.datacenters.filter (fun d =>
      (ns == "" || d.Namespace == ns) && matchingLabels labels d.Labels)))
  ListBackups s ns labels :=
    (s, .ok (s.backups.filter (fun b =>
      (ns == "" || b.Namespace == ns) && matchingLabels labels b.Labels)))
  DeleteDatacenter s d :=
    if d.Name ∈ s.denied then (s, some (.status "Forbidden"))
    else ({ s with datacenters := s.datacenters.filter (fun x => x ≠ d) }, none)
  DeleteBackup s b :=
    if b.Name ∈ s.denied then (s, some (.status "Forbidden"))
    else ({ s with backups := s.backups.filter (fun x => x ≠ b) }, none)
  Create s u :=
    if u.Name ∈ s.denied then (s, u, some (.status "Forbidden"))
    else if s.crds.any (fun x => x.Name == u.Name) then (s, u, some (.alreadyExists u.Name))
    else ({ s with crds := s.crds ++ [u] }, u, none)
  Update s u :=
    if s.crds.any (fun x => x.Name == u.Name) then
      ({ s with crds := s.crds.map (fun x => if x.Name == u.Name then u else x) }, u, none)
    else (s, u, some (.status "NotFound"))

/-! ## Specification-side notions -/

/-- The requests sent between two worlds of one run. -/
def issued {σ : Type} (before after : World σ) : List Request :=
  after.requests.drop before.requests.length

/-- A datacenter carries the release-name annotation with value `releaseName`. -/
def ownedBy (releaseName : String) (dc : CassandraDatacenter) : Bool :=
  dc.Annotations.lookup releaseAnnotation == some releaseName

/-- The cluster state after the datacenters are deleted one after the other,
when each of these deletes succeeds. -/
def deleteAll {σ : Type} (c : Client σ) : σ → List CassandraDatacenter → Option σ
  | s, [] => some s
  | s, dc :: rest =>
    match c.DeleteDatacenter s dc with
    | (s1, none) => deleteAll c s1 rest
    | (_, some _) => none

/-! ## Concrete inputs -/

deriving instance DecidableEq for Except

/-- Datacenter A of release analytics. -/
def dcA : CassandraDatacenter :=
  { Name := "A", Namespace := "ns1", Labels := [(managedLabel, managedLabelValue)],
    Annotations := [( releaseAnnotation, "analytics")] }

/-- Datacenter B of release analytics. -/
def dcB : CassandraDatacenter :=
  { Name := "B", Namespace := "ns1", Labels := [(managedLabel, managedLabelValue)],
    Annotations := [( releaseAnnotation, "analytics")] }

/-- Datacenter C of another release. -/
def dcC : CassandraDatacenter :=
  { Name := "C", Namespace := "ns1", Labels := [(managedLabel, managedLabelValue)],
    Annotations := [( releaseAnnotation, "billing")] }

/-- Datacenter D of release analytics. -/
def dcD : CassandraDatacenter :=
  { Name := "D", Namespace := "ns1", Labels := [(managedLabel, managedLabelValue)],
    Annotations := [( releaseAnnotation, "analytics")] }

/-- Datacenter E, managed by Helm but without the release-name annotation. -/
def dcE : CassandraDatacenter :=
  { Name := "E", Namespace := "ns1", Labels := [(managedLabel, managedLabelValue)],
    Annotations := [] }

/-- A backup of datacenter A, labelled with release analytics. -/
def bkA : CassandraBackup :=
  { Name := "backup-a", Namespace := "ns1", Labels := [(instanceLabel, "analytics")],
    SpecCassandraDatacenter := "A" }

/-- A backup of datacenter C, labelled with release analytics. -/
def bkC : CassandraBackup :=
  { Name := "backup-c", Namespace := "ns1", Labels := [(instanceLabel, "analytics")],
    SpecCassandraDatacenter := "C" }

/-- The scenario cluster: A and B of release analytics, C of another release, E
without annotation, and two backups labelled analytics. -/
def cluster0 : Cluster :=
  { datacenters := [dcA, dcC, dcE, dcB], backups := [bkA, bkC], crds := [], denied := [] }

/-- A world over `cluster0` with an empty file system and no request sent. -/
def world0 : World Cluster := { cluster := cluster0, fs := [], requests := [] }

/-- A cluster in which the API server refuses to delete B. -/
def clusterDenied : Cluster :=
  { datacenters := [dcA, dcC, dcB, dcD], backups := [bkA, bkC], crds := [], denied := ["B"] }

/-- A world over `clusterDenied`. -/
def worldDenied : World Cluster := { cluster := clusterDenied, fs := [], requests := [] }

/-- The request that lists the datacenters managed by Helm in namespace ns1. -/
def listManaged : Request := .listDatacenters "ns1" [(managedLabel, managedLabelValue)]

/-- Four resource-type definitions. -/
def crdA : Unstructured := { Name := "crd-a", Body := "v2" }

/-- Second definition. -/
def crdB : Unstructured := { Name := "crd-b", Body := "v2" }

/-- Third definition. -/
def crdC : Unstructured := { Name := "crd-c", Body := "v2" }

/-- Fourth definition. -/
def crdD : Unstructured := { Name := "crd-d", Body := "v2" }

/-- The definition `crd-a` as an older release stored it. -/
def crdAOld : Unstructured := { Name := "crd-a", Body := "v1" }

/-- The directory the artifact provider extracts release 1.4.0 into. -/
def extractDir : Path := ["tmp", "k8ssandra-1.4.0"]

/-- The directory `crdDir` of `Upgrade` for `extractDir` and chart k8ssandra. -/
def crdDir : Path := ["tmp", "k8ssandra-1.4.0", "k8ssandra", "crds"]

/-- The extracted chart, in walk order, with the given files in its `crds`
directory. -/
def chartTree (crdFiles : List (String × Node)) : FS :=
  [(extractDir, .dir),
   (extractDir ++ ["k8ssandra"], .dir),
   (extractDir ++ ["k8ssandra", "Chart.yaml"], .file [.wellFormed ⟨"k8ssandra", "1.4.0"⟩]),
   (crdDir, .dir)] ++ crdFiles.map (fun f => (crdDir ++ [f.1], f.2))

/-- An artifact provider that knows release 1.4.0 only and extracts it afresh
into `extractDir`. -/
def provider (crdFiles : List (String × Node)) : Helmutil :=
  { ChartName := "k8ssandra",
    DownloadChartRelease := fun version fs =>
      if version = "1.4.0" then (RemoveAll extractDir fs ++ chartTree crdFiles, .ok extractDir)
      else (fs, .error (.status "chart version not found")) }

/-- Two files: one document, and three concatenated documents. -/
def filesOneAndThree : List (String × Node) :=
  [("a.yaml", .file [.wellFormed crdA]),
   ("b.yaml", .file [.wellFormed crdB, .wellFormed crdC, .wellFormed crdD])]

/-- One file with one document. -/
def filesOne : List (String × Node) := [("a.yaml", .file [.wellFormed crdA])]

/-- Two files with one document each. -/
def filesTwo : List (String × Node) :=
  [("a.yaml", .file [.wellFormed crdA]), ("b.yaml", .file [.wellFormed crdB])]

/-- Three files, the second of which is malformed. -/
def filesBroken : List (String × Node) :=
  [("a.yaml", .file [.wellFormed crdA]),
   ("b.yaml", .file [.malformed (.yaml "mapping values are not allowed in this context")]),
   ("c.yaml", .file [.wellFormed crdC])]

/-- An empty cluster and a file system holding the temporary directory. -/
def worldEmpty : World Cluster :=
  { cluster := { datacenters := [], backups := [], crds := [], denied := [] },
    fs := [(["tmp"], .dir)], requests := [] }

/-- A cluster that already stores `crd-a`, from an older release. -/
def worldStored : World Cluster :=
  { cluster := { datacenters := [], backups := [], crds := [crdAOld], denied := [] },
    fs := [(["tmp"], .dir)], requests := [] }

/-- A cluster whose API server refuses to create `crd-a` and `crd-b`. -/
def worldRefusing : World Cluster :=
  { cluster := { datacenters := [], backups := [], crds := [], denied := ["crd-a", "crd-b"] },
    fs := [(["tmp"], .dir)], requests := [] }

/-! ## Cleaner: loops -/

/-- The datacenter loop when every delete it sends succeeds. -/
theorem removeCassandraDatacenterLoop_all_succeed {σ : Type} (c : Client σ) (rel : String) :
    ∀ (items : List CassandraDatacenter) (w : World σ) (s2 : σ),
      deleteAll c w.cluster (items.filter (ownedBy rel)) = some s2 →
      removeCassandraDatacenterLoop c rel items w =
        ({ cluster := s2, fs := w.fs,
           requests := w.requests ++ (items.filter (ownedBy rel)).map Request.deleteDatacenter },
          .returned none) := by
  intro items
  induction items with
  | nil =>
    intro w s2 hall
    simp [deleteAll] at hall
    subst hall
    simp [removeCassandraDatacenterLoop]
  | cons d rest ih =>
    intro w s2 hall
    cases hlk : d.Annotations.lookup releaseAnnotation with
    | none =>
      have hown : ownedBy rel d = false := by simp [ownedBy, hlk]
      simp [hown] at hall
      simp [removeCassandraDatacenterLoop, hlk, hown, ih w s2 hall]
    | some release =>
      by_cases hrel : release = rel
      · have hown : ownedBy rel d = true := by simp [ownedBy, hlk, hrel]
        cases hd : c.DeleteDatacenter w.cluster d with
        | mk s r =>
          cases r with
          | some e1 => simp [hown, deleteAll, hd] at hall
          | none =>
            simp [hown, deleteAll, hd] at hall
            have h := ih (w.sent (.deleteDatacenter d) s) s2 hall
            simp only [World.sent] at h
            simp [removeCassandraDatacenterLoop, hlk, hrel, hown, hd, h, World.sent]
      · have hown : ownedBy rel d = false := by simp [ownedBy, hlk, hrel]
        simp [hown] at hall
        simp [removeCassandraDatacenterLoop, hlk, hrel, hown, ih w s2 hall]

/-- Ownership is the annotation lookup giving the release name. -/
theorem ownedBy_iff (rel : String) (dc : CassandraDatacenter) :
    ownedBy rel dc = true ↔ dc.Annotations.lookup releaseAnnotation = some rel := by
  simp [ownedBy]

/-- The datacenter loop up to the first delete that fails. -/
theorem removeCassandraDatacenterLoop_first_failure {σ : Type} (c : Client σ) (rel : String)
    (x : CassandraDatacenter) (post : List CassandraDatacenter) (e : Err)
    (hx : ownedBy rel x = true) :
    ∀ (pre : List CassandraDatacenter) (w : World σ) (s2 s3 : σ),
      deleteAll c w.cluster (pre.filter (ownedBy rel)) = some s2 →
      c.DeleteDatacenter s2 x = (s3, some e) →
      removeCassandraDatacenterLoop c rel (pre ++ x :: post) w =
        ({ cluster := s3, fs := w.fs,
           requests := w.requests ++
             ((pre.filter (ownedBy rel)).map Request.deleteDatacenter ++
               [Request.deleteDatacenter x]) }, .exited 1) := by
  intro pre
  induction pre with
  | nil =>
    intro w s2 s3 hpre hfail
    have hlk := (ownedBy_iff rel x).1 hx
    simp [deleteAll] at hpre
    subst hpre
    simp [removeCassandraDatacenterLoop, hlk, hfail, World.sent]
  | cons d rest ih =>
    intro w s2 s3 hpre hfail
    cases hlk : d.Annotations.lookup releaseAnnotation with
    | none =>
      have hown : ownedBy rel d = false := by simp [ownedBy, hlk]
      simp [hown] at hpre
      simp [removeCassandraDatacenterLoop, hlk, hown, ih w s2 s3 hpre hfail]
    | some release =>
      by_cases hrel : release = rel
      · have hown : ownedBy rel d = true := by simp [ownedBy, hlk, hrel]
        cases hd : c.DeleteDatacenter w.cluster d with
        | mk s r =>
          cases r with
          | some e1 => simp [hown, deleteAll, hd] at hpre
          | none =>
            simp [hown, deleteAll, hd] at hpre
            have h := ih (w.sent (.deleteDatacenter d) s) s2 s3 hpre hfail
            simp only [World.sent] at h
            simp [removeCassandraDatacenterLoop, hlk, hrel, hown, hd, h, World.sent]
      · have hown : ownedBy rel d = false := by simp [ownedBy, hlk, hrel]
        simp [hown] at hpre
        simp [removeCassandraDatacenterLoop, hlk, hrel, hown, ih w s2 s3 hpre hfail]

/-- The backup loop sends delete requests only, each for a listed backup of
the datacenter. -/
theorem removeCassandraBackupsLoop_requests {σ : Type} (c : Client σ)
    (cassdc : CassandraDatacenter) :
    ∀ (items : List CassandraBackup) (w : World σ), ∃ ds : List CassandraBackup,
      (removeCassandraBackupsLoop c cassdc items w).1.requests =
        w.requests ++ ds.map Request.deleteBackup ∧
      ∀ b ∈ ds, b ∈ items ∧ b.SpecCassandraDatacenter = cassdc.Name := by
  intro items
  induction items with
  | nil => intro w; exact ⟨[], by simp [removeCassandraBackupsLoop]⟩
  | cons d rest ih =>
    intro w
    by_cases hp : d.SpecCassandraDatacenter = cassdc.Name
    · cases hd : c.DeleteBackup w.cluster d with
      | mk s r =>
        cases r with
        | some e =>
          refine ⟨[d], ?_, ?_⟩
          · simp [removeCassandraBackupsLoop, hp, hd, World.sent]
          · intro b hb
            simp at hb
            subst hb
            exact ⟨by simp, hp⟩
        | none =>
          obtain ⟨ds, hreq, hds⟩ := ih (w.sent (.deleteBackup d) s)
          simp only [World.sent] at hreq
          refine ⟨d :: ds, ?_, ?_⟩
          · simp [removeCassandraBackupsLoop, hp, hd, hreq, World.sent]
          · intro b hb
            rcases List.mem_cons.1 hb with hb | hb
            · subst hb
              exact ⟨by simp, hp⟩
            · exact ⟨List.mem_cons_of_mem _ (hds b hb).1, (hds b hb).2⟩
    · obtain ⟨ds, hreq, hds⟩ := ih w
      refine ⟨ds, ?_, ?_⟩
      · simp [removeCassandraBackupsLoop, hp, hreq]
      · intro b hb
        exact ⟨List.mem_cons_of_mem _ (hds b hb).1, (hds b hb).2⟩

/-- The requests of `removeCassandraBackups`: the list request, then deletes of
backups of the datacenter. -/
theorem removeCassandraBackups_issued {σ : Type} (c : Client σ) (a : Agent)
    (cassdc : CassandraDatacenter) (rel : String) (w : World σ) :
    ∃ ds : List CassandraBackup,
      issued w (removeCassandraBackups c a cassdc rel w).1 =
        Request.listBackups cassdc.Namespace [(instanceLabel, rel)] ::
          ds.map Request.deleteBackup ∧
      ∀ b ∈ ds, b.SpecCassandraDatacenter = cassdc.Name := by
  cases hl : c.ListBackups w.cluster cassdc.Namespace [(instanceLabel, rel)] with
  | mk s r =>
    cases r with
    | error e =>
      refine ⟨[], ?_, by simp⟩
      simp [issued, removeCassandraBackups, hl, World.sent]
    | ok items =>
      obtain ⟨ds, hreq, hds⟩ := removeCassandraBackupsLoop_requests c cassdc items
        (w.sent (.listBackups cassdc.Namespace [(instanceLabel, rel)]) s)
      simp only [World.sent] at hreq
      refine ⟨ds, ?_, fun b hb => (hds b hb).2⟩
      simp [issued, removeCassandraBackups, hl, hreq, World.sent]

/-- The datacenter loop sends delete requests for datacenters only. -/
theorem removeCassandraDatacenterLoop_requests {σ : Type} (c : Client σ) (rel : String) :
    ∀ (items : List CassandraDatacenter) (w : World σ), ∃ ds : List CassandraDatacenter,
      (removeCassandraDatacenterLoop c rel items w).1.requests =
        w.requests ++ ds.map Request.deleteDatacenter := by
  intro items
  induction items with
  | nil => intro w; exact ⟨[], by simp [removeCassandraDatacenterLoop]⟩
  | cons d rest ih =>
    intro w
    cases hlk : d.Annotations.lookup releaseAnnotation with
    | none =>
      obtain ⟨ds, hreq⟩ := ih w
      exact ⟨ds, by simp [removeCassandraDatacenterLoop, hlk, hreq]⟩
    | some release =>
      by_cases hrel : release = rel
      · cases hd : c.DeleteDatacenter w.cluster d with
        | mk s r =>
          cases r with
          | some e =>
            exact ⟨[d], by simp [removeCassandraDatacenterLoop, hlk, hrel, hd, World.sent]⟩
          | none =>
            obtain ⟨ds, hreq⟩ := ih (w.sent (.deleteDatacenter d) s)
            simp only [World.sent] at hreq
            exact ⟨d :: ds, by
              simp [removeCassandraDatacenterLoop, hlk, hrel, hd, hreq, World.sent]⟩
      · obtain ⟨ds, hreq⟩ := ih w
        exact ⟨ds, by simp [removeCassandraDatacenterLoop, hlk, hrel, hreq]⟩

/-- Whatever the cluster holds and answers, `RemoveResources` sends one list
request for datacenters followed by delete requests for datacenters. -/
theorem RemoveResources_issued_shape {σ : Type} (c : Client σ) (a : Agent)
    (rel : String) (w : World σ) :
    ∃ ds : List CassandraDatacenter,
      issued w (RemoveResources c a rel w).1 =
        Request.listDatacenters a.Namespace [(managedLabel, managedLabelValue)] ::
          ds.map Request.deleteDatacenter := by
  cases hl : c.ListDatacenters w.cluster a.Namespace [(managedLabel, managedLabelValue)] with
  | mk s r =>
    cases r with
    | error e =>
      exact ⟨[], by simp [issued, RemoveResources, removeCassandraDatacenter, hl, World.sent]⟩
    | ok items =>
      obtain ⟨ds, hreq⟩ := removeCassandraDatacenterLoop_requests c rel items
        (w.sent (.listDatacenters a.Namespace [(managedLabel, managedLabelValue)]) s)
      simp only [World.sent] at hreq
      refine ⟨ds, ?_⟩
      have hrr : (RemoveResources c a rel w).1 =
          (removeCassandraDatacenterLoop c rel items
            { cluster := s, fs := w.fs, requests := w.requests ++
              [Request.listDatacenters a.Namespace [(managedLabel, managedLabelValue)]] }).1 := by
        simp only [RemoveResources, removeCassandraDatacenter, hl, World.sent]
        split <;> simp_all
      simp [issued, hrr, hreq]

/-! ## Cleaner: claims -/

/-- C1. When the list call gives `items` and each delete of an owned resource
succeeds, `RemoveResources` returns nil and the requests it sends are the list
request followed by exactly one delete per listed resource whose release-name
annotation is present and equal to `releaseName`, in list order; a resource whose
annotation is absent or different gets no delete request. -/
theorem RemoveResources_deletes_exactly_owned {σ : Type} (c : Client σ) (a : Agent)
    (releaseName : String) (w : World σ) (s1 s2 : σ) (items : List CassandraDatacenter)
    (hlist : c.ListDatacenters w.cluster a.Namespace [(managedLabel, managedLabelValue)] =
      (s1, .ok items))
    (hall : deleteAll c s1 (items.filter (ownedBy releaseName)) = some s2) :
    (RemoveResources c a releaseName w).2 = .returned none ∧
    issued w (RemoveResources c a releaseName w).1 =
      Request.listDatacenters a.Namespace [(managedLabel, managedLabelValue)] ::
        (items.filter (fun dc => dc.Annotations.lookup releaseAnnotation == some releaseName)).map
          Request.deleteDatacenter ∧
    ∀ dc, dc.Annotations.lookup releaseAnnotation ≠ some releaseName →
      Request.deleteDatacenter dc ∉ issued w (RemoveResources c a releaseName w).1 := by
  have hloop := removeCassandraDatacenterLoop_all_succeed c releaseName items
    (w.sent (.listDatacenters a.Namespace [(managedLabel, managedLabelValue)]) s1) s2 hall
  simp only [World.sent] at hloop
  have hrun : RemoveResources c a releaseName w =
      ({ cluster := s2, fs := w.fs,
         requests := w.requests ++ (Request.listDatacenters a.Namespace
           [(managedLabel, managedLabelValue)] ::
           (items.filter (ownedBy releaseName)).map Request.deleteDatacenter) },
        .returned none) := by
    simp [RemoveResources, removeCassandraDatacenter, hlist, hloop, World.sent]
  have hfun : (fun dc : CassandraDatacenter =>
      dc.Annotations.lookup releaseAnnotation == some releaseName) = ownedBy releaseName := by
    funext dc; rfl
  rw [hfun, hrun]
  refine ⟨rfl, by simp [issued], ?_⟩
  intro dc hdc hmem
  simp [issued] at hmem
  exact hdc ((ownedBy_iff releaseName dc).1 hmem.2)

/-- C1 on the scenario cluster: A and B are deleted in list order, C (another
release) and E (no annotation) are not. -/
theorem RemoveResources_deletes_exactly_owned_witness :
    (RemoveResources memClient ⟨"ns1"⟩ "analytics" world0).2 = .returned none ∧
    issued world0 (RemoveResources memClient ⟨"ns1"⟩ "analytics" world0).1 =
      [listManaged, .deleteDatacenter dcA, .deleteDatacenter dcB] ∧
    Request.deleteDatacenter dcC ∉
      issued world0 (RemoveResources memClient ⟨"ns1"⟩ "analytics" world0).1 ∧
    Request.deleteDatacenter dcE ∉
      issued world0 (RemoveResources memClient ⟨"ns1"⟩ "analytics" world0).1 :=
  have h := RemoveResources_deletes_exactly_owned memClient ⟨"ns1"⟩ "analytics" world0
    cluster0 { cluster0 with datacenters := [dcC, dcE] } [dcA, dcC, dcE, dcB]
    (by decide) (by decide)
  ⟨h.1, h.2.1, h.2.2 dcC (by decide), h.2.2 dcE (by decide)⟩

/-- C2, as the code has it. `RemoveResources` deletes primary resources and
nothing else: for every client, cluster and release name the requests it sends
are the list request for datacenters followed by delete requests for
datacenters. It sends no list request for backups and no delete request for any
backup, also not for the backups of a datacenter it deleted. -/
theorem RemoveResources_sends_no_backup_request {σ : Type} (c : Client σ) (a : Agent)
    (releaseName : String) (w : World σ) :
    (∃ ds : List CassandraDatacenter,
      issued w (RemoveResources c a releaseName w).1 =
        Request.listDatacenters a.Namespace [(managedLabel, managedLabelValue)] ::
          ds.map Request.deleteDatacenter) ∧
    (∀ ns labels,
      Request.listBackups ns labels ∉ issued w (RemoveResources c a releaseName w).1) ∧
    (∀ b, Request.deleteBackup b ∉ issued w (RemoveResources c a releaseName w).1) := by
  obtain ⟨ds, hiss⟩ := RemoveResources_issued_shape c a releaseName w
  refine ⟨⟨ds, hiss⟩, ?_, ?_⟩
  · intro ns labels hmem
    rw [hiss] at hmem
    simp at hmem
  · intro b hmem
    rw [hiss] at hmem
    simp at hmem

/-- C2 on the scenario cluster: A is deleted, and neither the list request for
the backups of release analytics in ns1 nor a delete of the backup of A is
sent. -/
theorem RemoveResources_sends_no_backup_request_witness :
    Request.deleteDatacenter dcA ∈
      issued world0 (RemoveResources memClient ⟨"ns1"⟩ "analytics" world0).1 ∧
    Request.listBackups "ns1" [(instanceLabel, "analytics")] ∉
      issued world0 (RemoveResources memClient ⟨"ns1"⟩ "analytics" world0).1 ∧
    Request.deleteBackup bkA ∉
      issued world0 (RemoveResources memClient ⟨"ns1"⟩ "analytics" world0).1 :=
  have h := RemoveResources_sends_no_backup_request memClient ⟨"ns1"⟩ "analytics" world0
  ⟨by decide, h.2.1 "ns1" [(instanceLabel, "analytics")], h.2.2 bkA⟩

/-- C2 as stated fails. On the scenario cluster `RemoveResources` deletes A and
B and returns nil; the backup of A carries the instance label of the release and
names A as its datacenter, yet no delete request is sent for it and it is still
stored. The requests that `removeCassandraBackups` would send for A are shown
for comparison; `RemoveResources` does not call it. -/
theorem RemoveResources_leaves_backups :
    issued world0 (RemoveResources memClient ⟨"ns1"⟩ "analytics" world0).1 =
      [listManaged, .deleteDatacenter dcA, .deleteDatacenter dcB] ∧
    (bkA.Namespace = dcA.Namespace ∧
      bkA.Labels.lookup instanceLabel = some "analytics" ∧
      bkA.SpecCassandraDatacenter = dcA.Name) ∧
    Request.deleteBackup bkA ∉
      issued world0 (RemoveResources memClient ⟨"ns1"⟩ "analytics" world0).1 ∧
    (RemoveResources memClient ⟨"ns1"⟩ "analytics" world0).1.cluster.backups = [bkA, bkC] ∧
    (RemoveResources memClient ⟨"ns1"⟩ "analytics" world0).2 = .returned none ∧
    issued world0 (removeCassandraBackups memClient ⟨"ns1"⟩ dcA "analytics" world0).1 =
      [.listBackups "ns1" [(instanceLabel, "analytics")], .deleteBackup bkA] := by
  decide

/-- C3. Every delete request that `removeCassandraBackups` sends is for a backup
whose `spec.cassandraDatacenter` equals `cassdc.Name`; a backup that carries the
instance label of the release but names another datacenter is not deleted. -/
theorem removeCassandraBackups_deletes_only_children {σ : Type} (c : Client σ) (a : Agent)
    (cassdc : CassandraDatacenter) (releaseName : String) (w : World σ) :
    (∀ b, Request.deleteBackup b ∈
        issued w (removeCassandraBackups c a cassdc releaseName w).1 →
      b.SpecCassandraDatacenter = cassdc.Name) ∧
    (∀ b, b.Labels.lookup instanceLabel = some releaseName →
      b.SpecCassandraDatacenter ≠ cassdc.Name →
      Request.deleteBackup b ∉ issued w (removeCassandraBackups c a cassdc releaseName w).1) := by
  obtain ⟨ds, hiss, hds⟩ := removeCassandraBackups_issued c a cassdc releaseName w
  have key : ∀ b, Request.deleteBackup b ∈
      issued w (removeCassandraBackups c a cassdc releaseName w).1 →
      b.SpecCassandraDatacenter = cassdc.Name := by
    intro b hb
    rw [hiss] at hb
    simp at hb
    exact hds b hb
  exact ⟨key, fun b _ hne hmem => hne (key b hmem)⟩

/-- C3 on the scenario cluster, for datacenter A: its backup is deleted, the
backup of C with the same instance label is not. -/
theorem removeCassandraBackups_deletes_only_children_witness :
    (Request.deleteBackup bkA ∈
        issued world0 (removeCassandraBackups memClient ⟨"ns1"⟩ dcA "analytics" world0).1 ∧
      bkA.SpecCassandraDatacenter = dcA.Name) ∧
    (bkC.Labels.lookup instanceLabel = some "analytics" ∧
      bkC.SpecCassandraDatacenter ≠ dcA.Name ∧
      Request.deleteBackup bkC ∉
        issued world0 (removeCassandraBackups memClient ⟨"ns1"⟩ dcA "analytics" world0).1) :=
  have h := removeCassandraBackups_deletes_only_children memClient ⟨"ns1"⟩ dcA "analytics" world0
  ⟨⟨by decide, h.1 bkA (by decide)⟩, by decide, by decide, h.2 bkC (by decide) (by decide)⟩

/-- C4, as the code has it. When the delete of the owned resource `x` is the
first delete to fail, `RemoveResources` does not return: `log.Fatalf` ends the
process with status 1. The requests sent are the list request, one delete for
each owned resource listed before `x`, and the delete for `x`; the cluster is
left in the state those requests produced, and nothing is sent for the
resources listed after `x`. -/
theorem RemoveResources_first_delete_failure_exits {σ : Type} (c : Client σ) (a : Agent)
    (releaseName : String) (w : World σ) (s1 s2 s3 : σ)
    (pre post : List CassandraDatacenter) (x : CassandraDatacenter) (e : Err)
    (hlist : c.ListDatacenters w.cluster a.Namespace [(managedLabel, managedLabelValue)] =
      (s1, .ok (pre ++ x :: post)))
    (hx : x.Annotations.lookup releaseAnnotation = some releaseName)
    (hpre : deleteAll c s1 (pre.filter (ownedBy releaseName)) = some s2)
    (hfail : c.DeleteDatacenter s2 x = (s3, some e)) :
    RemoveResources c a releaseName w =
      ({ cluster := s3, fs := w.fs,
         requests := w.requests ++
           (Request.listDatacenters a.Namespace [(managedLabel, managedLabelValue)] ::
             ((pre.filter (ownedBy releaseName)).map Request.deleteDatacenter ++
               [Request.deleteDatacenter x])) },
        .exited 1) := by
  have hloop := removeCassandraDatacenterLoop_first_failure c releaseName x post e
    ((ownedBy_iff releaseName x).2 hx) pre
    (w.sent (.listDatacenters a.Namespace [(managedLabel, managedLabelValue)]) s1) s2 s3
    hpre hfail
  simp only [World.sent] at hloop
  simp [RemoveResources, removeCassandraDatacenter, hlist, hloop, World.sent]

/-- C4 on a cluster that refuses to delete B: A is deleted, the delete of B
fails, the process exits and D, listed after B, gets no request. -/
theorem RemoveResources_first_delete_failure_exits_witness :
    RemoveResources memClient ⟨"ns1"⟩ "analytics" worldDenied =
      ({ cluster := { clusterDenied with datacenters := [dcC, dcB, dcD] }, fs := [],
         requests := [listManaged, .deleteDatacenter dcA, .deleteDatacenter dcB] },
        .exited 1) :=
  RemoveResources_first_delete_failure_exits memClient ⟨"ns1"⟩ "analytics" worldDenied
    clusterDenied { clusterDenied with datacenters := [dcC, dcB, dcD] }
    { clusterDenied with datacenters := [dcC, dcB, dcD] } [dcA, dcC] [dcD] dcB
    (.status "Forbidden") (by decide) (by decide) (by decide) (by decide)

/-- C4 as stated fails: with A deleted and the delete of B refused with
`Forbidden`, `RemoveResources` does not return that error; the process exits. -/
theorem RemoveResources_delete_error_not_returned :
    (memClient.DeleteDatacenter { clusterDenied with datacenters := [dcC, dcB, dcD] } dcB).2 =
      some (.status "Forbidden") ∧
    (RemoveResources memClient ⟨"ns1"⟩ "analytics" worldDenied).2 = .exited 1 ∧
    (RemoveResources memClient ⟨"ns1"⟩ "analytics" worldDenied).2 ≠
      .returned (some (.status "Forbidden")) := by
  decide

/-! ## Upgrader: loops -/

/-- The apply loop does not touch the file system. -/
theorem reconcileLoop_fs {σ : Type} (c : Client σ) (err : Option Err) :
    ∀ (res : List Nat) (heap : List Unstructured) (w : World σ),
      (reconcileLoop c err res heap w).1.fs = w.fs := by
  intro res
  induction res with
  | nil => intro heap w; simp [reconcileLoop]
  | cons p rest ih =>
    intro heap w
    cases hp : heap[p]? with
    | none => simp [reconcileLoop, hp]
    | some obj =>
      cases hc : c.Create w.cluster obj with
      | mk s1 r1 =>
        cases r1 with
        | mk obj1 e1 =>
          cases err with
          | none => simp [reconcileLoop, hp, hc, ih, World.sent]
          | some e =>
            cases hu : c.Update s1 obj1 with
            | mk s2 r2 =>
              cases r2 with
              | mk obj2 e2 =>
                by_cases hae : IsAlreadyExists e = true
                · simp [reconcileLoop, hp, hc, hu, hae, World.sent]
                · simp [reconcileLoop, hp, hc, hae, ih, World.sent]

/-- With `err` nil or not `AlreadyExists`, the apply loop runs to its end and
sends one create request per pointer, whatever the cluster answers. -/
theorem reconcileLoop_only_creates {σ : Type} (c : Client σ) (err : Option Err)
    (herr : ∀ e, err = some e → IsAlreadyExists e = false) :
    ∀ (res : List Nat) (heap : List Unstructured) (w : World σ),
      (∀ p ∈ res, p < heap.length) →
      ∃ (s : σ) (objs : List Unstructured),
        reconcileLoop c err res heap w =
          ({ cluster := s, fs := w.fs, requests := w.requests ++ objs.map Request.create },
            none) ∧
        objs.length = res.length := by
  intro res
  induction res with
  | nil =>
    intro heap w _
    exact ⟨w.cluster, [], by simp [reconcileLoop], rfl⟩
  | cons p rest ih =>
    intro heap w hvalid
    have hp : p < heap.length := hvalid p (by simp)
    have hget : heap[p]? = some heap[p] := List.getElem?_eq_getElem hp
    cases hc : c.Create w.cluster heap[p] with
    | mk s1 r1 =>
      cases r1 with
      | mk obj1 e1 =>
        have hrest : ∀ q ∈ rest, q < (heap.set p obj1).length := by
          intro q hq
          simpa using hvalid q (List.mem_cons_of_mem _ hq)
        obtain ⟨s, objs, hrun, hlen⟩ := ih (heap.set p obj1) (w.sent (.create heap[p]) s1) hrest
        simp only [World.sent] at hrun
        refine ⟨s, heap[p] :: objs, ?_, by simp [hlen]⟩
        cases err with
        | none => simp [reconcileLoop, hget, hc, hrun, World.sent]
        | some e =>
          have hae : IsAlreadyExists e = false := herr e rfl
          simp [reconcileLoop, hget, hc, hae, hrun, World.sent]

/-- Every pointer in `res` designates a cell, and there is one per document. -/
theorem collectPointers_valid (perIteration : Bool) (crds : List Unstructured) :
    (∀ p ∈ (collectPointers perIteration crds).2, p < (collectPointers perIteration crds).1.length) ∧
    (collectPointers perIteration crds).2.length = crds.length := by
  cases perIteration with
  | true => simp [collectPointers]
  | false =>
    cases hl : crds.getLast? with
    | none =>
      have : crds = [] := by simpa using hl
      simp [collectPointers, this]
    | some last => simp [collectPointers, hl]

/-- The callback appends at most one document per entry. -/
theorem walkFn_length (crds : List Unstructured) (n : Node) :
    (walkFn crds n).1.length ≤ crds.length + 1 := by
  unfold walkFn
  split <;> simp

/-- The walk collects at most one document per entry met. -/
theorem walkEntries_length :
    ∀ (nodes : List Node) (crds : List Unstructured),
      (walkEntries nodes crds).1.length ≤ crds.length + nodes.length := by
  intro nodes
  induction nodes with
  | nil => intro crds; simp [walkEntries]
  | cons n rest ih =>
    intro crds
    have h1 := walkFn_length crds n
    cases hw : walkFn crds n with
    | mk crds1 out =>
      rw [hw] at h1
      simp only at h1
      cases out with
      | returned err =>
        cases err with
        | none =>
          have h2 := ih crds1
          simp only [walkEntries, hw, List.length_cons]
          omega
        | some e =>
          simp only [walkEntries, hw, List.length_cons]
          omega
      | exited st =>
        simp only [walkEntries, hw, List.length_cons]
        omega
      | panicked =>
        simp only [walkEntries, hw, List.length_cons]
        omega

/-- Whatever the cluster answers, when the fetch succeeds and the walk ends with
`err` (nil, or an error that is not `AlreadyExists`), `Upgrade` returns `err`
after one create request per collected document and no update request, and the
file system is the fetched one without `crdDir`. -/
theorem Upgrade_requests_are_creates {σ : Type} (h : Helmutil) (perIteration : Bool)
    (c : Client σ) (targetVersion : String) (w : World σ) (fs1 : FS) (dir : Path)
    (crds : List Unstructured) (err : Option Err)
    (hfetch : h.DownloadChartRelease targetVersion w.fs = (fs1, .ok dir))
    (hparse : parseChartCRDs [] (Join dir [h.ChartName, "crds"]) fs1 = (crds, .returned err))
    (herr : ∀ e, err = some e → IsAlreadyExists e = false) :
    ∃ (s : σ) (objs : List Unstructured),
      Upgrade h perIteration c targetVersion w =
        ({ cluster := s, fs := RemoveAll (Join dir [h.ChartName, "crds"]) fs1,
           requests := w.requests ++ objs.map Request.create }, .returned err) ∧
      objs.length = crds.length := by
  obtain ⟨hvalid, hlen⟩ := collectPointers_valid perIteration crds
  obtain ⟨s, objs, hrun, hobjs⟩ := reconcileLoop_only_creates c err herr
    (collectPointers perIteration crds).2 (collectPointers perIteration crds).1
    { w with fs := fs1 } hvalid
  refine ⟨s, objs, ?_, by rw [hobjs, hlen]⟩
  simp [Upgrade, hfetch, hparse, hrun]

/-- The deferred call removes `crdDir` and what is below it, on every way out of
`Upgrade` after a successful fetch; every other entry stays. -/
theorem Upgrade_fs {σ : Type} (h : Helmutil) (perIteration : Bool)
    (c : Client σ) (targetVersion : String) (w : World σ) (fs1 : FS) (dir : Path)
    (hfetch : h.DownloadChartRelease targetVersion w.fs = (fs1, .ok dir)) :
    (Upgrade h perIteration c targetVersion w).1.fs =
      RemoveAll (Join dir [h.ChartName, "crds"]) fs1 := by
  cases hparse : parseChartCRDs [] (Join dir [h.ChartName, "crds"]) fs1 with
  | mk crds out =>
    cases out with
    | returned err =>
      have hfs := reconcileLoop_fs c err (collectPointers perIteration crds).2
        (collectPointers perIteration crds).1 { w with fs := fs1 }
      cases hrun : reconcileLoop c err (collectPointers perIteration crds).2
        (collectPointers perIteration crds).1 { w with fs := fs1 } with
      | mk w2 early =>
        rw [hrun] at hfs
        simp only at hfs
        cases early <;> simp [Upgrade, hfetch, hparse, hrun, hfs]
    | exited st => simp [Upgrade, hfetch, hparse]
    | panicked => simp [Upgrade, hfetch, hparse]

/-- Removing a tree leaves the entries outside it in place. -/
theorem RemoveAll_lookup (path p : Path) (hp : path.isPrefixOf p = false) :
    ∀ fs : FS, (RemoveAll path fs).lookup p = fs.lookup p := by
  intro fs
  induction fs with
  | nil => simp [RemoveAll]
  | cons entry rest ih =>
    obtain ⟨q, n⟩ := entry
    simp only [RemoveAll] at ih
    by_cases hq : p = q
    · subst hq
      simp [RemoveAll, List.filter_cons, hp, List.lookup]
    · have hne : (p == q) = false := by simpa using hq
      by_cases hk : path.isPrefixOf q = true
      · simp [RemoveAll, List.filter_cons, hk, List.lookup, hne, ih]
      · simp [RemoveAll, List.filter_cons, hk, List.lookup, hne, ih]

/-- The directory `crdDir` lies strictly below the extracted directory. -/
theorem Join_crds_not_above (dir : Path) (chartName : String) :
    (Join dir [chartName, "crds"]).isPrefixOf dir = false := by
  rw [Bool.eq_false_iff]
  intro hpre
  have hle := (List.isPrefixOf_iff_prefix.1 hpre).length_le
  by_cases hc : chartName = "" <;> simp [Join, List.filter_cons, hc] at hle

/-- After a successful fetch the directory the artifact provider returned is
found in the file system that `Upgrade` leaves behind exactly as the fetch left
it: the deferred call does not remove it. -/
theorem Upgrade_keeps_extract_dir {σ : Type} (h : Helmutil) (perIteration : Bool)
    (c : Client σ) (targetVersion : String) (w : World σ) (fs1 : FS) (dir : Path)
    (hfetch : h.DownloadChartRelease targetVersion w.fs = (fs1, .ok dir)) :
    (Upgrade h perIteration c targetVersion w).1.fs.lookup dir = fs1.lookup dir := by
  rw [Upgrade_fs h perIteration c targetVersion w fs1 dir hfetch]
  exact RemoveAll_lookup _ _ (Join_crds_not_above dir h.ChartName) fs1

/-! ## Upgrader: claims -/

/-- C5. The `crds` directory holds one file with a single document and one file
with three documents, four documents in all, and `Upgrade` sends two create
requests: one per file, for the first document of each file when every iteration
has its own range variable, and twice for the first document of the last file
when the range variable is shared. The other documents are never sent. -/
theorem Upgrade_sends_one_create_per_file :
    ((filesOneAndThree.map (fun f => match f.2 with
        | .file docs => docs.length
        | _ => 0)).sum = 4) ∧
    issued worldEmpty (Upgrade (provider filesOneAndThree) true memClient "1.4.0" worldEmpty).1 =
      [.create crdA, .create crdB] ∧
    issued worldEmpty (Upgrade (provider filesOneAndThree) false memClient "1.4.0" worldEmpty).1 =
      [.create crdB, .create crdB] ∧
    ∀ perIteration,
      (Upgrade (provider filesOneAndThree) perIteration memClient "1.4.0" worldEmpty).2 =
        .returned none := by
  decide

/-- C6. The cluster already stores `crd-a`, so the create request for it is
answered `AlreadyExists`; `Upgrade` sends that create request and nothing else,
returns nil and leaves the stored definition as it was. A second `Upgrade` on an
empty cluster likewise sends a create request only. -/
theorem Upgrade_already_exists_sends_no_update :
    (memClient.Create worldStored.cluster crdA).2.2 = some (.alreadyExists "crd-a") ∧
    ∀ perIteration,
      issued worldStored (Upgrade (provider filesOne) perIteration memClient "1.4.0" worldStored).1 =
        [.create crdA] ∧
      (Upgrade (provider filesOne) perIteration memClient "1.4.0" worldStored).2 =
        .returned none ∧
      (Upgrade (provider filesOne) perIteration memClient "1.4.0" worldStored).1.cluster.crds =
        [crdAOld] ∧
      issued (Upgrade (provider filesOne) perIteration memClient "1.4.0" worldEmpty).1
        (Upgrade (provider filesOne) perIteration memClient "1.4.0"
          (Upgrade (provider filesOne) perIteration memClient "1.4.0" worldEmpty).1).1 =
        [.create crdA] := by
  decide

/-- C7. The API server refuses both create requests with `Forbidden`; `Upgrade`
still sends a create request after the first refused one and returns nil. -/
theorem Upgrade_create_failure_is_dropped :
    (memClient.Create worldRefusing.cluster crdA).2.2 = some (.status "Forbidden") ∧
    (memClient.Create worldRefusing.cluster crdB).2.2 = some (.status "Forbidden") ∧
    issued worldRefusing (Upgrade (provider filesTwo) true memClient "1.4.0" worldRefusing).1 =
      [.create crdA, .create crdB] ∧
    issued worldRefusing (Upgrade (provider filesTwo) false memClient "1.4.0" worldRefusing).1 =
      [.create crdB, .create crdB] ∧
    ∀ perIteration,
      (Upgrade (provider filesTwo) perIteration memClient "1.4.0" worldRefusing).2 =
        .returned none := by
  decide

/-- C8. The second of three files is malformed: the walk stops there with the
decoding error and `Upgrade` returns that error, but only after it has sent a
create request for the document decoded from the first file, which the cluster
now stores. -/
theorem Upgrade_applies_documents_before_parse_failure :
    parseChartCRDs [] crdDir (chartTree filesBroken) =
      ([crdA], .returned (some (.yaml "mapping values are not allowed in this context"))) ∧
    ∀ perIteration,
      (Upgrade (provider filesBroken) perIteration memClient "1.4.0" worldEmpty).2 =
        .returned (some (.yaml "mapping values are not allowed in this context")) ∧
      issued worldEmpty (Upgrade (provider filesBroken) perIteration memClient "1.4.0" worldEmpty).1 =
        [.create crdA] ∧
      (Upgrade (provider filesBroken) perIteration memClient "1.4.0" worldEmpty).1.cluster.crds =
        [crdA] := by
  decide

/-- C9. After a successful fetch the directory that the artifact provider
returned is still there when `Upgrade` returns, with the chart files outside
`crds`; only the `crds` subdirectory is gone. This is so when `Upgrade` succeeds
and when the walk fails. -/
theorem Upgrade_leaves_extract_dir :
    ((provider filesOneAndThree).DownloadChartRelease "1.4.0" worldEmpty.fs).2 = .ok extractDir ∧
    ∀ perIteration,
      (Upgrade (provider filesOneAndThree) perIteration memClient "1.4.0" worldEmpty).1.fs =
        [(["tmp"], .dir), (extractDir, .dir), (extractDir ++ ["k8ssandra"], .dir),
         (extractDir ++ ["k8ssandra", "Chart.yaml"], .file [.wellFormed ⟨"k8ssandra", "1.4.0"⟩])] ∧
      (Upgrade (provider filesBroken) perIteration memClient "1.4.0" worldEmpty).1.fs.lookup
        extractDir = some .dir ∧
      (Upgrade (provider filesBroken) perIteration memClient "1.4.0" worldEmpty).1.fs.lookup
        crdDir = none := by
  decide

/-! ## Command: claims -/

/-- C10. With no argument the guard `len(args) < 0` does not hold, `args[0]`
is out of range and `Complete` panics; it does not return
`errNotEnoughParameters`. -/
theorem Complete_empty_args_panics (loaderNamespace : String × Option Err) (c : options) :
    Complete loaderNamespace c [] = (c, .panicked) ∧
    (Complete loaderNamespace c []).2 ≠ .returned (some errNotEnoughParameters) := by
  simp [Complete]

end K8ssandra
